import Mathlib

/-!
Shallow embedding of the HvacTelnetServer example
(`examples/HvacTelnetServer/HvacTelnetServer.ino.cpp`): the waveform codec
(GC / pronto / racepoint string decoders), the per-device runtime state,
and the command processor, together with theorems checking the
specification's claims about them.

Machine integers are modelled as `Nat`/`Int` with explicit `% 2^w` where the
C++ code can overflow (the ESP32 target has 32-bit `unsigned long`, 16-bit
`uint16_t`, 8-bit `uint8_t`).  The `float` fields of the runtime state are
modelled as exact rationals `ℚ`.  Arduino `String` values are modelled as
Lean `String` / `List Char`.
-/

/-- `isTokenSep` from the source: token separators for the flexible tokenizer. -/
def isTokenSep (c : Char) : Bool :=
  c = ',' || c = ';' || c = ' ' || c = '\t'

/-- `isHexDigitChar` from the source. -/
def isHexDigitChar (c : Char) : Bool :=
  ('0' ≤ c && c ≤ '9') || ('a' ≤ c && c ≤ 'f') || ('A' ≤ c && c ≤ 'F')

/-- Whitespace recognised by C `isspace` (used by Arduino `String::trim` and
by `atol`/`strtoul`). -/
def isSpaceC (c : Char) : Bool :=
  c = ' ' || c = '\t' || c = '\n' || c = Char.ofNat 11 || c = Char.ofNat 12 || c = '\r'

/-- Arduino `String::trim`: remove leading and trailing whitespace. -/
def trimArd (l : List Char) : List Char :=
  ((l.dropWhile isSpaceC).reverse.dropWhile isSpaceC).reverse

/-- ASCII lowercasing of one character (Arduino `String::toLowerCase`). -/
def alowerChar (c : Char) : Char :=
  if 'A' ≤ c && c ≤ 'Z' then Char.ofNat (c.toNat + 32) else c

/-- ASCII lowercasing of a string (Arduino `String::toLowerCase`). -/
def alower (s : String) : String :=
  ⟨s.data.map alowerChar⟩

/-- Accumulator pass of the flexible tokenizer
(`countTokensFlexible` / `nextTokenFlexible` from the source): split on
separators, coalescing runs and ignoring leading/trailing separators. -/
def tokenizeAux : List Char → List Char → List (List Char)
  | [], acc => if acc.isEmpty then [] else [acc.reverse]
  | c :: rest, acc =>
    if isTokenSep c then
      if acc.isEmpty then tokenizeAux rest []
      else acc.reverse :: tokenizeAux rest []
    else tokenizeAux rest (c :: acc)

/-- The token sequence produced by `nextTokenFlexible` iteration;
`countTokensFlexible` is its length. -/
def tokenizeFlexible (l : List Char) : List (List Char) :=
  tokenizeAux l []

/-- Value of one hexadecimal digit character. -/
def hexVal (c : Char) : Nat :=
  if '0' ≤ c && c ≤ '9' then c.toNat - 48
  else if 'a' ≤ c && c ≤ 'f' then c.toNat - 87
  else if 'A' ≤ c && c ≤ 'F' then c.toNat - 55
  else 0

/-- Decimal-digit test used by the C library number parsers. -/
def isDigitC (c : Char) : Bool :=
  '0' ≤ c && c ≤ '9'

/-- Value of a leading run of decimal digits (0 when there is none),
as accumulated by `atol`. -/
def decDigitsVal : List Char → Nat → Nat
  | [], acc => acc
  | c :: rest, acc =>
    if isDigitC c then decDigitsVal rest (acc * 10 + (c.toNat - 48)) else acc

/-- `atol` as called through Arduino `String::toInt`: skip leading
whitespace, optional sign, then leading decimal digits (0 when none). -/
def atolArd (l : List Char) : Int :=
  let l₁ := l.dropWhile isSpaceC
  match l₁ with
  | '-' :: rest => -(decDigitsVal rest 0 : Int)
  | '+' :: rest => (decDigitsVal rest 0 : Int)
  | _ => (decDigitsVal l₁ 0 : Int)

/-- Value of a leading run of hexadecimal digits (0 when there is none). -/
def hexDigitsVal : List Char → Nat → Nat
  | [], acc => acc
  | c :: rest, acc =>
    if isHexDigitChar c then hexDigitsVal rest (acc * 16 + hexVal c) else acc

/-- Leading hex digits after an optional `0x`/`0X` prefix
(`strtoul(..., 16)` body). -/
def hexBody (l : List Char) : Nat :=
  match l with
  | '0' :: 'x' :: rest => hexDigitsVal rest 0
  | '0' :: 'X' :: rest => hexDigitsVal rest 0
  | _ => hexDigitsVal l 0

/-- `strtoul(token, NULL, 16)` on the ESP32 (32-bit `unsigned long`):
skip whitespace, optional sign (a minus negates modulo 2^32), optional
`0x`, leading hex digits. -/
def strtoulHex (l : List Char) : Nat :=
  let l₁ := l.dropWhile isSpaceC
  match l₁ with
  | '-' :: rest => ((-(hexBody rest : Int)) % (4294967296 : Int)).toNat
  | '+' :: rest => hexBody rest % 4294967296
  | _ => hexBody l₁ % 4294967296

/-- Conversion of a C `int` to `uint8_t` (modulo 2^8). -/
def toUInt8C (i : Int) : Nat :=
  (i % 256).toNat

/-- Conversion of a C integer value to `uint16_t` (modulo 2^16). -/
def toUInt16C (i : Int) : Nat :=
  (i % 65536).toNat

/-- `parseStringAndSendGC` from the source, as the pair of its boolean
result and the `uint16_t` code array handed to `sendGC`: strip the
optional `sendir,` and `1:1,1,` prefixes, tokenize flexibly, parse each
token with `String::toInt`. -/
def parseStringAndSendGC (str : List Char) : Bool × List Nat :=
  let t0 := trimArd str
  let t1 := if ("sendir,".data).isPrefixOf t0 then t0.drop 7 else t0
  let t2 := if ("1:1,1,".data).isPrefixOf t1 then t1.drop 6 else t1
  let arr := (tokenizeFlexible t2).map (fun tok => toUInt16C (atolArd tok))
  (decide (0 < arr.length), arr)

/-- Modelled from the spec: the library constant giving the
protocol-minimum number of pronto words (`kProntoMinLength` of
IRremoteESP8266's `IRsend`, which is not under `src/`): four header words
plus at least one mark/space pair. -/
def kProntoMinLength : Nat := 6

/-- The repeat-token inspection of `parseStringAndSendPronto`: given the
token list, return the effective count for the minimum-length check, the
effective repeat number, and the tokens that remain as data.  The code
consumes the first token when it is longer than one character and starts
with `R` or `r`, taking `substring(1).toInt()` (cast to `uint16_t`) as the
repeat count. -/
def prontoCore (tokens : List (List Char)) (repeats : Nat) :
    Nat × Nat × List (List Char) :=
  match tokens with
  | [] => (0, repeats, [])
  | t :: rest =>
    if 1 < t.length ∧ (t.head? = some 'R' ∨ t.head? = some 'r') then
      (tokens.length - 1, toUInt16C (atolArd (t.drop 1)), rest)
    else
      (tokens.length, repeats, tokens)

/-- `parseStringAndSendPronto` from the source, as the pair of its boolean
result and (on reaching the send) the `uint16_t` code array and repeat
count handed to `sendPronto`. -/
def parseStringAndSendPronto (str : List Char) (repeats : Nat) :
    Bool × Option (List Nat × Nat) :=
  let tokens := tokenizeFlexible (trimArd str)
  let r := prontoCore tokens repeats
  if r.1 < kProntoMinLength then (false, none)
  else
    let arr := r.2.2.map (fun tok => toUInt16C ((strtoulHex tok : Int)))
    (decide (0 < arr.length), some (arr, r.2.1))

/-- Partition of the retained hex digits into 4-digit big-endian words
(the word-building loop over `buf`/`strtoul`). -/
def toWords : List Char → List Nat
  | a :: b :: c :: d :: rest =>
    (hexVal a * 4096 + hexVal b * 256 + hexVal c * 16 + hexVal d) :: toWords rest
  | _ => []

/-- The frequency scan: first word within `[20000, 60000]`, together with
the index just after it. -/
def findFreq : List Nat → Nat → Option (Nat × Nat)
  | [], _ => none
  | w :: rest, i =>
    if 20000 ≤ w ∧ w ≤ 60000 then some (w, i + 1) else findFreq rest (i + 1)

/-- Trailing-zero trimming of the pulse words (`while (end > start && words[end-1]==0) end--`). -/
def dropTrailingZeros (l : List Nat) : List Nat :=
  (l.reverse.dropWhile (fun w => w == 0)).reverse

/-- The validity checks of `parseStringAndSendRacepoint`: retained hex
digits, word partition, frequency scan, trailing-zero trim.  `none` exactly
when the source returns `false` before emitting. -/
def parseRacepointWords (l : List Char) : Option (Nat × List Nat) :=
  let hex := l.filter isHexDigitChar
  if hex.length < 8 ∨ hex.length % 4 ≠ 0 then none
  else
    let words := toWords hex
    match findFreq words 0 with
    | none => none
    | some (f, start) =>
      if words.length ≤ start then none
      else
        let pulses := dropTrailingZeros (words.drop start)
        if pulses = [] then none else some (f, pulses)

/-- One pulse duration in microseconds: the source computes
`(uint32_t(word) * 1000000UL + freq/2) / freq` in 32-bit unsigned
arithmetic (ESP32 `unsigned long` is 32 bits), hence modulo 2^32. -/
def durationOf (freq w : Nat) : Nat :=
  ((w * 1000000 + freq / 2) % 4294967296) / freq

/-- An action emitted to the `IRsend` raw interface. -/
inductive IRAction : Type where
  | enableIROut (freq : Nat)
  | mark (d : Nat)
  | space (d : Nat)
  deriving DecidableEq, Repr

/-- The mark-splitting loop with explicit fuel (each iteration removes at
least one unit, so `d` itself is enough fuel). -/
def markChunksAux : Nat → Nat → List Nat
  | 0, _ => []
  | _ + 1, 0 => []
  | fuel + 1, d + 1 =>
    let chunk := min (d + 1) 65535
    chunk :: markChunksAux fuel (d + 1 - chunk)

/-- The mark-splitting loop: `while (duration > 0) { chunk = min(duration, 65535); mark(chunk); duration -= chunk; }`. -/
def markChunks (d : Nat) : List Nat :=
  markChunksAux d d

/-- Emission for the pulse word at index `i`: even indices are marks
(split into chunks), odd indices are a single space. -/
def wordActions (freq i w : Nat) : List IRAction :=
  let d := durationOf freq w
  if i % 2 = 0 then (markChunks d).map IRAction.mark else [IRAction.space d]

/-- The emission loop over the trimmed pulse words, carrying the index. -/
def pulseActions (freq : Nat) : List Nat → Nat → List IRAction
  | [], _ => []
  | w :: rest, i => wordActions freq i w ++ pulseActions freq rest (i + 1)

/-- `parseStringAndSendRacepoint` from the source, as the pair of its
boolean result and the emitted action sequence. -/
def parseStringAndSendRacepoint (l : List Char) : Bool × List IRAction :=
  match parseRacepointWords l with
  | none => (false, [])
  | some (f, pulses) =>
    (true, IRAction.enableIROut f :: (pulseActions f pulses 0 ++ [IRAction.space 0]))

/-- `stdAc::opmode_t` (the constructors handled by `opmodeToString`). -/
inductive Opmode : Type where
  | kOff | kAuto | kCool | kHeat | kDry | kFan
  deriving DecidableEq, Repr

/-- `stdAc::fanspeed_t` (the constructors handled by `fanToString`). -/
inductive Fanspeed : Type where
  | kAuto | kMin | kLow | kMedium | kHigh | kMax
  deriving DecidableEq, Repr

/-- `opmodeToString` from the source. -/
def opmodeToString : Opmode → String
  | .kCool => "cool"
  | .kHeat => "heat"
  | .kDry => "dry"
  | .kFan => "fan"
  | .kOff => "off"
  | _ => "auto"

/-- `fanToString` from the source. -/
def fanToString : Fanspeed → String
  | .kMin => "min"
  | .kLow => "low"
  | .kMedium => "medium"
  | .kHigh => "high"
  | .kMax => "max"
  | _ => "auto"

/-- `normalizeMode` from the source. -/
def normalizeMode (s : String) : String :=
  let out := alower s
  if out = "cool" ∨ out = "heat" ∨ out = "dry" ∨ out = "fan" ∨ out = "off"
  then out else "auto"

/-- `normalizeFan` from the source. -/
def normalizeFan (s : String) : String :=
  let out := alower s
  if out = "min" ∨ out = "low" ∨ out = "medium" ∨ out = "high" ∨ out = "max"
  then out else "auto"

/-- `floatChanged` from the source (floats as exact rationals). -/
def floatChanged (a b : ℚ) : Bool :=
  decide (b + 0.05 < a) || decide (a + 0.05 < b)

/-- `HvacRuntimeState` from the source; the two `float` fields are modelled
as exact rationals. -/
structure HvacState : Type where
  initialized : Bool := false
  power : Bool := false
  mode : String := "off"
  setpoint : ℚ := 24
  currentTemp : ℚ := 24
  fan : String := "auto"
  light : Bool := false
  deriving DecidableEq, Repr

instance : Inhabited HvacState := ⟨{}⟩

/-- `hvacStateChanged` from the source. -/
def hvacStateChanged (a b : HvacState) : Bool :=
  if a.initialized ≠ b.initialized then true
  else if !a.initialized && !b.initialized then false
  else if a.power ≠ b.power then true
  else if a.mode ≠ b.mode then true
  else if a.fan ≠ b.fan then true
  else if a.light ≠ b.light then true
  else if floatChanged a.setpoint b.setpoint then true
  else if floatChanged a.currentTemp b.currentTemp then true
  else false

/-- `ensureHvacStateInitialized` on one state record (the source guards the
array index and assigns the default fields when uninitialized). -/
def ensureHvacStateInitialized (st : HvacState) : HvacState :=
  if st.initialized then st
  else { initialized := true, power := false, mode := "off", setpoint := 24,
         currentTemp := 24, fan := "auto", light := false }

/-- `HvacConfig` from the source (the custom temperature table as an
association list in declaration order). -/
structure HvacConfig : Type where
  id : String := ""
  protocol : String := ""
  emitterIndex : Int := -1
  model : Int := -1
  isCustom : Bool := false
  customEncoding : String := ""
  customOff : String := ""
  customTemps : List (Int × String) := []
  deriving DecidableEq, Repr

instance : Inhabited HvacConfig := ⟨{}⟩

/-- `findCustomTempCode` from the source: first table entry with the given
integer temperature, `""` when absent. -/
def findCustomTempCode (hvac : HvacConfig) (tempC : Int) : String :=
  match hvac.customTemps.find? (fun p => p.1 = tempC) with
  | some p => p.2
  | none => ""

/-- `findHvacIndexById` from the source: index of the first device with the
given identifier. -/
def findHvacIndexById (hvacs : List HvacConfig) (id : String) : Option Nat :=
  match hvacs with
  | [] => none
  | h :: rest =>
    if h.id = id then some 0 else (findHvacIndexById rest id).map (· + 1)

/-- The `type:"state"` JSON object built by `writeStateJson`. -/
structure StateJson : Type where
  id : String
  power : String
  mode : String
  setpoint : ℚ
  current_temp : ℚ
  fan : String
  light : String
  deriving DecidableEq, Repr

/-- `writeStateJson` from the source.  Note the `current_temp` field is
written from `hvacState.setpoint`. -/
def writeStateJson (id : String) (hvacState : HvacState) : StateJson :=
  { id := id
    power := if hvacState.power then "on" else "off"
    mode := hvacState.mode
    setpoint := hvacState.setpoint
    current_temp := hvacState.setpoint
    fan := hvacState.fan
    light := if hvacState.light then "on" else "off" }

/-- A JSON number as ArduinoJson distinguishes it: integer or float. -/
inductive JNum : Type where
  | int (i : Int)
  | float (q : ℚ)
  deriving DecidableEq, Repr

/-- Read a `JNum` as a float (`as<float>()` / `| default` float reads). -/
def JNum.toQ : JNum → ℚ
  | .int i => (i : ℚ)
  | .float q => q

/-- A JSON value read either as a bool or as a string (the `light` field). -/
inductive JBS : Type where
  | bool (b : Bool)
  | str (s : String)
  deriving DecidableEq, Repr

/-- The structured command document: each field is absent or present with
the type the source reads it at. -/
structure Doc : Type where
  cmd : Option String := none
  id : Option String := none
  power : Option String := none
  command : Option String := none
  mode : Option String := none
  fan : Option String := none
  temp : Option JNum := none
  current_temp : Option JNum := none
  light : Option JBS := none
  encoding : Option String := none
  code : Option String := none
  emitter : Option Int := none
  deriving DecidableEq, Repr

/-- Modelled from the spec: `IRac::strToBool` (library code not under
`src/`): bool-ish strings coerce to their truth value, anything else to
the supplied default. -/
def strToBool (s : String) (dflt : Bool) : Bool :=
  let t := alower s
  if t = "on" ∨ t = "1" ∨ t = "yes" ∨ t = "true" then true
  else if t = "off" ∨ t = "0" ∨ t = "no" ∨ t = "false" then false
  else dflt

/-- Modelled from the spec: `IRac::strToOpmode` (library code not under
`src/`): mode enum strings coerce to the matching operating mode, anything
unrecognized to `kAuto`. -/
def strToOpmode (s : String) : Opmode :=
  let t := alower s
  if t = "cool" then .kCool
  else if t = "heat" then .kHeat
  else if t = "dry" then .kDry
  else if t = "fan" ∨ t = "fan_only" then .kFan
  else if t = "off" then .kOff
  else .kAuto

/-- Modelled from the spec: `IRac::strToFanspeed` (library code not under
`src/`): fan enum strings coerce to the matching speed, anything
unrecognized to `kAuto`. -/
def strToFanspeed (s : String) : Fanspeed :=
  let t := alower s
  if t = "min" then .kMin
  else if t = "low" then .kLow
  else if t = "medium" then .kMedium
  else if t = "high" then .kHigh
  else if t = "max" then .kMax
  else .kAuto

/-- The resolved power of a `send` command: `strToBool(doc["power"] | "on")`
then forced off by `command == "off"`. -/
def resolvedPower (doc : Doc) : Bool :=
  if doc.command.getD "" = "off" then false
  else strToBool (doc.power.getD "on") false

/-- The resolved light flag: explicit boolean, or a string coerced to
boolean, defaulting to the previous value. -/
def resolveLight (doc : Doc) (prev : Bool) : Bool :=
  match doc.light with
  | none => prev
  | some (.bool b) => b
  | some (.str s) => strToBool s false

/-- `doc["temp"].is<int>()`: the integer value of the `temp` field when it
is a JSON integer. -/
def Doc.intTemp (doc : Doc) : Option Int :=
  match doc.temp with
  | some (.int i) => some i
  | _ => none

/-- The code resolution of the custom branch: the configured off code when
powering off (`missing_custom_off` when absent), the temperature-table
code when powering on with no explicit code and an integer `temp`
(`missing_temp_code` when absent), `missing_code` when nothing resolves. -/
def customCode (hvac : HvacConfig) (doc : Doc) : Except String String :=
  let code0 := doc.code.getD ""
  let r : Except String String :=
    if resolvedPower doc = false then
      if hvac.customOff = "" then .error "missing_custom_off"
      else .ok hvac.customOff
    else if code0 = "" ∧ (doc.intTemp).isSome then
      let c := findCustomTempCode hvac ((doc.intTemp).getD 0)
      if c = "" then .error "missing_temp_code" else .ok c
    else .ok code0
  match r with
  | .error e => .error e
  | .ok c => if c = "" then .error "missing_code" else .ok c

/-- The state committed by the custom branch of `send`. -/
def resolveCustomNext (doc : Doc) (previous : HvacState) : HvacState :=
  let power := resolvedPower doc
  let modeStr := normalizeMode (doc.mode.getD previous.mode)
  let fanStr := normalizeFan (doc.fan.getD previous.fan)
  let temp := ((doc.temp.map JNum.toQ).getD previous.setpoint)
  let light := resolveLight doc previous.light
  { initialized := true
    power := power
    mode := if power then modeStr else "off"
    setpoint := temp
    fan := fanStr
    light := light
    currentTemp :=
      match doc.current_temp with
      | some n => n.toQ
      | none => if previous.initialized = false then temp else previous.currentTemp }

/-- The state committed by the named-protocol branch of `send`. -/
def resolveNamedNext (doc : Doc) (previous : HvacState) : HvacState :=
  let power := resolvedPower doc
  let mode := if power = false then Opmode.kOff else strToOpmode (doc.mode.getD "auto")
  let temp := ((doc.temp.map JNum.toQ).getD 24)
  let fan := strToFanspeed (doc.fan.getD "auto")
  let light := resolveLight doc previous.light
  { initialized := true
    power := power
    mode := opmodeToString mode
    setpoint := temp
    fan := fanToString fan
    light := light
    currentTemp :=
      match doc.current_temp with
      | some n => n.toQ
      | none => if previous.initialized = false then temp else previous.currentTemp }

/-- `sendCustomCode` from the source: dispatch on the encoding tag to the
waveform codec (the emitter handle is non-null for every configured
emitter; the pronto default repeat is 0). -/
def sendCustomCode (code encoding : String) : Bool :=
  if encoding = "pronto" then (parseStringAndSendPronto code.data 0).1
  else if encoding = "gc" then (parseStringAndSendGC code.data).1
  else if encoding = "racepoint" then (parseStringAndSendRacepoint code.data).1
  else false

/-- The mutable tables consulted by `processCommand`: the device registry
(`config.hvacs`), the per-device runtime states (`hvacStates`, parallel to
the registry), and the number of live emitters (`emitterRuntimeCount`; every
live emitter carries both a raw and an ac sender). -/
structure Sys : Type where
  hvacs : List HvacConfig
  states : List HvacState
  emitterCount : Nat
  deriving DecidableEq, Repr

/-- A structured reply. -/
inductive Reply : Type where
  | okHelp
  | okList (emitterCount : Nat) (hvacs : List HvacConfig)
  | okState (s : StateJson)
  | okStates (ss : List StateJson)
  | okRaw
  | err (e : String)
  deriving DecidableEq, Repr

/-- Whether a reply carries `ok: true`. -/
def Reply.isOk : Reply → Bool
  | .err _ => false
  | _ => true

/-- One `processCommand` call's effect: the tables afterwards, the reply,
and the broadcast fan-outs triggered (id and state pushed by
`broadcastStateToTelnetClients`). -/
structure StepResult : Type where
  sys : Sys
  reply : Reply
  broadcasts : List (String × HvacState)
  deriving DecidableEq, Repr

/-- `ensureHvacStateInitialized(idx)` on the state table. -/
def ensureAt (states : List HvacState) (idx : Nat) : List HvacState :=
  states.set idx (ensureHvacStateInitialized (states.getD idx default))

/-- The `get_all` loop: lazily initialize every registered device's state. -/
def getAllEnsure : List HvacConfig → List HvacState → List HvacState
  | [], sts => sts
  | _ :: _, [] => []
  | _ :: hs, st :: sts => ensureHvacStateInitialized st :: getAllEnsure hs sts

/-- The `get_all` loop's replies, one state object per registered device. -/
def getAllReplies : List HvacConfig → List HvacState → List StateJson
  | [], _ => []
  | _ :: _, [] => []
  | h :: hs, st :: sts =>
    writeStateJson h.id (ensureHvacStateInitialized st) :: getAllReplies hs sts

/-- The `send` path of `processCommand` (`cmd` resolved to `"send"`).
`protoSup` stands for `IRac::isProtocolSupported ∘ strToDecodeType` and
`acOk` for the boolean returned by the external `IRac::sendAc` call, both
library code not under `src/`. -/
def sendCmd (protoSup : String → Bool) (sys : Sys) (doc : Doc) (acOk : Bool) :
    StepResult :=
  let id := doc.id.getD ""
  if id = "" then ⟨sys, .err "missing_id", []⟩
  else
    match findHvacIndexById sys.hvacs id with
    | none => ⟨sys, .err "unknown_id", []⟩
    | some idx =>
      let hvac := sys.hvacs.getD idx default
      if toUInt8C hvac.emitterIndex < sys.emitterCount then
        let states1 := ensureAt sys.states idx
        let sys1 : Sys := { sys with states := states1 }
        let previous := states1.getD idx default
        if hvac.isCustom ∨ hvac.protocol = "CUSTOM" then
          match customCode hvac doc with
          | .error e => ⟨sys1, .err e, []⟩
          | .ok code =>
            let next := resolveCustomNext doc previous
            if sendCustomCode code (doc.encoding.getD hvac.customEncoding) then
              ⟨{ sys1 with states := states1.set idx next },
               .okState (writeStateJson id next),
               if hvacStateChanged previous next then [(id, next)] else []⟩
            else ⟨sys1, .err "send_failed", []⟩
        else
          if protoSup hvac.protocol then
            let next := resolveNamedNext doc previous
            if acOk then
              ⟨{ sys1 with states := states1.set idx next },
               .okState (writeStateJson id next),
               if hvacStateChanged previous next then [(id, next)] else []⟩
            else ⟨sys1, .err "send_failed", []⟩
          else ⟨sys1, .err "unsupported_protocol", []⟩
      else ⟨sys, .err "invalid_emitter", []⟩

/-- `processCommand` from the source.  `protoSup` and `acOk` stand for the
two external library consultations of the named-protocol branch. -/
def processCommand (protoSup : String → Bool) (sys : Sys) (doc : Doc)
    (acOk : Bool) : StepResult :=
  let cmd := doc.cmd.getD "send"
  if cmd = "help" then ⟨sys, .okHelp, []⟩
  else if cmd = "list" then ⟨sys, .okList sys.emitterCount sys.hvacs, []⟩
  else if cmd = "get" then
    let id := doc.id.getD ""
    if id = "" then ⟨sys, .err "missing_id", []⟩
    else
      match findHvacIndexById sys.hvacs id with
      | none => ⟨sys, .err "unknown_id", []⟩
      | some idx =>
        let states1 := ensureAt sys.states idx
        ⟨{ sys with states := states1 },
         .okState (writeStateJson id (states1.getD idx default)), []⟩
  else if cmd = "get_all" then
    ⟨{ sys with states := getAllEnsure sys.hvacs sys.states },
     .okStates (getAllReplies sys.hvacs sys.states), []⟩
  else if cmd = "raw" then
    let emitterIndex := doc.emitter.getD 0
    let encoding := doc.encoding.getD "pronto"
    let code := doc.code.getD ""
    if toUInt8C emitterIndex < sys.emitterCount then
      let ok := sendCustomCode code encoding
      ⟨sys, if ok then .okRaw else .err "send_failed", []⟩
    else ⟨sys, .err "invalid_emitter", []⟩
  else if cmd ≠ "send" then ⟨sys, .err "unknown_cmd", []⟩
  else sendCmd protoSup sys doc acOk

/-- A sequence of `processCommand` calls (each with its external-send
oracle), folded over the tables. -/
def runCommands (protoSup : String → Bool) (sys : Sys) :
    List (Doc × Bool) → Sys
  | [] => sys
  | (doc, acOk) :: rest =>
    runCommands protoSup (processCommand protoSup sys doc acOk).sys rest

/-- The enumerated mode values of the spec's `DeviceState`. -/
def validMode (m : String) : Prop :=
  m ∈ (["auto", "cool", "heat", "dry", "fan", "off"] : List String)

/-- The enumerated fan values of the spec's `DeviceState`. -/
def validFan (f : String) : Prop :=
  f ∈ (["auto", "min", "low", "medium", "high", "max"] : List String)

instance (m : String) : Decidable (validMode m) := by
  unfold validMode; infer_instance

instance (f : String) : Decidable (validFan f) := by
  unfold validFan; infer_instance

/-- The duration of a mark action (used to refute C2 as stated). -/
def markDuration : IRAction → Option Nat
  | .mark d => some d
  | _ => none

/-- The C8 invariant on a state table: every stored mode and fan value is
one of the enumerated strings. -/
def StatesValid (states : List HvacState) : Prop :=
  ∀ st ∈ states, validMode st.mode ∧ validFan st.fan

/-- A custom device with a configured off code (C6 scenario). -/
def c6cfg : HvacConfig :=
  { id := "1", protocol := "CUSTOM", emitterIndex := 0, isCustom := true,
    customEncoding := "racepoint", customOff := "947000200010" }

/-- A registry holding `c6cfg` with its default (uninitialized) state. -/
def c6sys : Sys :=
  { hvacs := [c6cfg], states := [{}], emitterCount := 1 }

/-- A power-off `send` addressed to `c6cfg` (C6 scenario). -/
def c6doc : Doc :=
  { cmd := some "send", id := some "1", power := some "off" }

/- ## Theorems -/

/- ## Helper lemmas -/

theorem list_set_of_length_le {α : Type} {l : List α} {i : Nat} {a : α}
    (h : l.length ≤ i) : l.set i a = l := by
  induction l generalizing i with
  | nil => simp
  | cons x xs ih =>
    cases i with
    | zero => simp at h
    | succ n =>
      simp only [List.set]
      rw [ih (by simpa using h)]

theorem list_getD_set_self {α : Type} {l : List α} {i : Nat} {a d : α}
    (h : i < l.length) : (l.set i a).getD i d = a := by
  induction l generalizing i with
  | nil => simp at h
  | cons x xs ih =>
    cases i with
    | zero => simp [List.getD]
    | succ n =>
      simp only [List.set, List.getD, List.get?]
      have := ih (i := n) (by simpa using h)
      simpa [List.getD] using this

theorem list_set_getD_self {α : Type} {l : List α} {i : Nat} {d : α}
    (h : i < l.length) : l.set i (l.getD i d) = l := by
  induction l generalizing i with
  | nil => simp at h
  | cons x xs ih =>
    cases i with
    | zero => simp [List.getD]
    | succ n =>
      simp only [List.getD, List.get?, List.set, List.cons.injEq, true_and]
      have := ih (i := n) (by simpa using h)
      simpa [List.getD] using this

theorem findHvacIndexById_lt_length {hvacs : List HvacConfig} {id : String}
    {idx : Nat} (h : findHvacIndexById hvacs id = some idx) :
    idx < hvacs.length := by
  induction hvacs generalizing idx with
  | nil => simp [findHvacIndexById] at h
  | cons x xs ih =>
    simp only [findHvacIndexById] at h
    split at h
    · cases h; simp
    · cases hx : findHvacIndexById xs id with
      | none => rw [hx] at h; simp at h
      | some j =>
        rw [hx] at h
        simp at h
        subst h
        have := ih hx
        simp
        omega

theorem markChunksAux_sum {fuel d : Nat} (h : d ≤ fuel) :
    (markChunksAux fuel d).sum = d := by
  induction fuel generalizing d with
  | zero => interval_cases d; simp [markChunksAux]
  | succ n ih =>
    cases d with
    | zero => simp [markChunksAux]
    | succ m =>
      simp only [markChunksAux, List.sum_cons]
      rw [ih (by omega)]
      omega

theorem markChunksAux_mem {fuel d c : Nat} (h : d ≤ fuel)
    (hc : c ∈ markChunksAux fuel d) : 0 < c ∧ c ≤ 65535 := by
  induction fuel generalizing d with
  | zero => interval_cases d; simp [markChunksAux] at hc
  | succ n ih =>
    cases d with
    | zero => simp [markChunksAux] at hc
    | succ m =>
      simp only [markChunksAux, List.mem_cons] at hc
      rcases hc with hc | hc
      · subst hc; omega
      · exact ih (by omega) hc

theorem markChunksAux_eq_nil {fuel d : Nat} (hf : 0 < fuel) (hd : 0 < d) :
    markChunksAux fuel d ≠ [] := by
  cases fuel with
  | zero => omega
  | succ n =>
    cases d with
    | zero => omega
    | succ m => simp [markChunksAux]

theorem markChunksAux_dropLast {fuel d : Nat} (h : d ≤ fuel) :
    ∀ c ∈ (markChunksAux fuel d).dropLast, c = 65535 := by
  induction fuel generalizing d with
  | zero => interval_cases d; simp [markChunksAux]
  | succ n ih =>
    cases d with
    | zero => simp [markChunksAux]
    | succ m =>
      intro c hc
      by_cases hbig : 65535 < m + 1
      · have hmin : min (m + 1) 65535 = 65535 := by omega
        simp only [markChunksAux, hmin] at hc
        have hne : markChunksAux n (m + 1 - 65535) ≠ [] :=
          markChunksAux_eq_nil (by omega) (by omega)
        rw [List.dropLast_cons_of_ne_nil hne] at hc
        rcases List.mem_cons.mp hc with hc | hc
        · exact hc
        · exact ih (by omega) c hc
      · have hmin : min (m + 1) 65535 = m + 1 := by omega
        have hz : m + 1 - (m + 1) = 0 := by omega
        simp only [markChunksAux, hmin, hz] at hc
        cases n with
        | zero => simp [markChunksAux] at hc
        | succ k => simp [markChunksAux] at hc

theorem markChunks_sum (d : Nat) : (markChunks d).sum = d :=
  markChunksAux_sum (Nat.le_refl d)

theorem markChunks_mem {d c : Nat} (hc : c ∈ markChunks d) :
    0 < c ∧ c ≤ 65535 :=
  markChunksAux_mem (Nat.le_refl d) hc

theorem markChunks_dropLast {d : Nat} : ∀ c ∈ (markChunks d).dropLast, c = 65535 :=
  markChunksAux_dropLast (Nat.le_refl d)

theorem findFreq_eq_none_iff {l : List Nat} {i : Nat} :
    findFreq l i = none ↔ ∀ w ∈ l, ¬(20000 ≤ w ∧ w ≤ 60000) := by
  induction l generalizing i with
  | nil => simp [findFreq]
  | cons w rest ih =>
    simp only [findFreq, List.mem_cons]
    split
    · simp_all
    · rw [ih (i := i + 1)]
      constructor
      · intro h x hx
        rcases hx with hx | hx
        · subst hx; assumption
        · exact h x hx
      · intro h x hx
        exact h x (Or.inr hx)

theorem findFreq_some_range {l : List Nat} {i f s : Nat}
    (h : findFreq l i = some (f, s)) : f ∈ l ∧ 20000 ≤ f ∧ f ≤ 60000 := by
  induction l generalizing i with
  | nil => simp [findFreq] at h
  | cons w rest ih =>
    simp only [findFreq] at h
    split at h
    · cases h
      exact ⟨List.mem_cons_self _ _, by omega, by omega⟩
    · have := ih h
      exact ⟨List.mem_cons_of_mem _ this.1, this.2⟩

theorem dropTrailingZeros_eq_nil_iff {l : List Nat} :
    dropTrailingZeros l = [] ↔ ∀ w ∈ l, w = 0 := by
  unfold dropTrailingZeros
  rw [List.reverse_eq_nil_iff, List.dropWhile_eq_nil_iff]
  constructor
  · intro h w hw
    have := h w (List.mem_reverse.mpr hw)
    simpa using this
  · intro h w hw
    simpa using h w (List.mem_reverse.mp hw)

theorem racepoint_false_iff_none {l : List Char} :
    (parseStringAndSendRacepoint l).1 = false ↔ parseRacepointWords l = none := by
  unfold parseStringAndSendRacepoint
  cases h : parseRacepointWords l with
  | none => simp
  | some p => simp

theorem parseRacepointWords_eq_none_iff {l : List Char} :
    parseRacepointWords l = none ↔
    ((l.filter isHexDigitChar).length < 8 ∨
     (l.filter isHexDigitChar).length % 4 ≠ 0 ∨
     (∀ w ∈ toWords (l.filter isHexDigitChar), ¬(20000 ≤ w ∧ w ≤ 60000)) ∨
     (∃ f s, findFreq (toWords (l.filter isHexDigitChar)) 0 = some (f, s) ∧
        ∀ w ∈ (toWords (l.filter isHexDigitChar)).drop s, w = 0)) := by
  unfold parseRacepointWords
  dsimp only
  split
  · rename_i hlen
    constructor
    · intro _
      rcases hlen with h | h
      · exact Or.inl h
      · exact Or.inr (Or.inl h)
    · intro _; rfl
  · rename_i hlen
    push_neg at hlen
    split
    · rename_i hff
      have hall := findFreq_eq_none_iff.mp hff
      constructor
      · intro _
        exact Or.inr (Or.inr (Or.inl hall))
      · intro _; rfl
    · rename_i f s hff
      have hrange := findFreq_some_range hff
      split
      · rename_i hs
        constructor
        · intro _
          refine Or.inr (Or.inr (Or.inr ⟨f, s, hff, ?_⟩))
          intro w hw
          rw [List.drop_eq_nil_of_le hs] at hw
          simp at hw
        · intro _; rfl
      · rename_i hs
        split
        · rename_i hz
          constructor
          · intro _
            exact Or.inr (Or.inr (Or.inr
              ⟨f, s, hff, dropTrailingZeros_eq_nil_iff.mp hz⟩))
          · intro _; rfl
        · rename_i hz
          simp only [reduceCtorEq, false_iff]
          intro hcon
          rcases hcon with h | h | h | h
          · omega
          · omega
          · exact h f hrange.1 ⟨hrange.2.1, hrange.2.2⟩
          · obtain ⟨f', s', heq, hall⟩ := h
            rw [hff] at heq
            have hseq : s = s' := by
              have := Option.some.inj heq
              exact (Prod.mk.injEq _ _ _ _ ▸ this).2
            rw [← hseq] at hall
            exact hz (dropTrailingZeros_eq_nil_iff.mpr hall)

theorem floatChanged_iff {a b : ℚ} : floatChanged a b = true ↔ 0.05 < |a - b| := by
  unfold floatChanged
  rw [Bool.or_eq_true, decide_eq_true_eq, decide_eq_true_eq, lt_abs]
  constructor
  · rintro (h | h)
    · left; linarith
    · right; linarith
  · rintro (h | h)
    · left; linarith
    · right; linarith

theorem hvacStateChanged_iff (a b : HvacState) :
    hvacStateChanged a b = true ↔
    (a.initialized ≠ b.initialized ∨
     (a.initialized = true ∧ b.initialized = true ∧
      (a.power ≠ b.power ∨ a.mode ≠ b.mode ∨ a.fan ≠ b.fan ∨ a.light ≠ b.light ∨
       0.05 < |a.setpoint - b.setpoint| ∨ 0.05 < |a.currentTemp - b.currentTemp|))) := by
  unfold hvacStateChanged
  by_cases hinit : a.initialized = b.initialized
  · rw [if_neg (by simp [hinit])]
    cases ha : a.initialized with
    | false =>
      have hb : b.initialized = false := by rw [← hinit, ha]
      rw [if_pos (by simp [ha, hb])]
      simp [hinit, ha, hb]
    | true =>
      have hb : b.initialized = true := by rw [← hinit, ha]
      rw [if_neg (by simp [ha, hb])]
      simp only [hinit, ne_eq, not_true_eq_false, false_or, ha, hb, true_and]
      by_cases hp : a.power = b.power
      · rw [if_neg (by simp [hp])]
        by_cases hm : a.mode = b.mode
        · rw [if_neg (by simp [hm])]
          by_cases hf : a.fan = b.fan
          · rw [if_neg (by simp [hf])]
            by_cases hl : a.light = b.light
            · rw [if_neg (by simp [hl])]
              by_cases hsp : floatChanged a.setpoint b.setpoint
              · rw [if_pos hsp]
                simp [hp, hm, hf, hl, floatChanged_iff.mp hsp]
              · rw [if_neg hsp]
                by_cases hct : floatChanged a.currentTemp b.currentTemp
                · rw [if_pos hct]
                  simp [hp, hm, hf, hl, floatChanged_iff.mp hct]
                · rw [if_neg hct]
                  simp only [Bool.false_eq_true, false_iff]
                  intro hcon
                  rcases hcon with h | h | h | h | h | h
                  · exact h hp
                  · exact h hm
                  · exact h hf
                  · exact h hl
                  · exact hsp (floatChanged_iff.mpr h)
                  · exact hct (floatChanged_iff.mpr h)
            · rw [if_pos (by simp [hl])]
              simp [hl]
          · rw [if_pos (by simp [hf])]
            simp [hf]
        · rw [if_pos (by simp [hm])]
          simp [hm]
      · rw [if_pos (by simp [hp])]
        simp [hp]
  · rw [if_pos (by simp [hinit])]
    simp [hinit]

theorem normalizeMode_valid (s : String) : validMode (normalizeMode s) := by
  unfold normalizeMode
  dsimp only
  split
  · rename_i h
    rcases h with h | h | h | h | h <;> rw [h] <;> decide
  · decide

theorem normalizeFan_valid (s : String) : validFan (normalizeFan s) := by
  unfold normalizeFan
  dsimp only
  split
  · rename_i h
    rcases h with h | h | h | h | h <;> rw [h] <;> decide
  · decide

theorem opmodeToString_valid (m : Opmode) : validMode (opmodeToString m) := by
  cases m <;> decide

theorem fanToString_valid (f : Fanspeed) : validFan (fanToString f) := by
  cases f <;> decide

theorem normalizeMode_idem (s : String) :
    normalizeMode (normalizeMode s) = normalizeMode s := by
  have h := normalizeMode_valid s
  unfold validMode at h
  simp only [List.mem_cons, List.not_mem_nil, or_false] at h
  rcases h with h | h | h | h | h | h <;> rw [h] <;> decide

theorem normalizeFan_idem (s : String) :
    normalizeFan (normalizeFan s) = normalizeFan s := by
  have h := normalizeFan_valid s
  unfold validFan at h
  simp only [List.mem_cons, List.not_mem_nil, or_false] at h
  rcases h with h | h | h | h | h | h <;> rw [h] <;> decide

theorem floatChanged_self (x : ℚ) : floatChanged x x = false := by
  unfold floatChanged
  simp only [Bool.or_eq_false_iff, decide_eq_false_iff_not, not_lt]
  constructor <;> linarith

theorem hvacStateChanged_self (s : HvacState) : hvacStateChanged s s = false := by
  unfold hvacStateChanged
  rw [if_neg (by simp)]
  cases h : s.initialized with
  | false => rw [if_pos (by simp [h])]
  | true =>
    rw [if_neg (by simp [h])]
    rw [if_neg (by simp), if_neg (by simp), if_neg (by simp), if_neg (by simp)]
    rw [if_neg (by simp [floatChanged_self]), if_neg (by simp [floatChanged_self])]

theorem ensure_of_initialized {st : HvacState} (h : st.initialized = true) :
    ensureHvacStateInitialized st = st := by
  unfold ensureHvacStateInitialized
  rw [if_pos h]

theorem resolveCustomNext_initialized (doc : Doc) (p : HvacState) :
    (resolveCustomNext doc p).initialized = true := rfl

theorem resolveNamedNext_initialized (doc : Doc) (p : HvacState) :
    (resolveNamedNext doc p).initialized = true := rfl

theorem resolveCustomNext_fix (doc : Doc) (p : HvacState) :
    resolveCustomNext doc (resolveCustomNext doc p) = resolveCustomNext doc p := by
  unfold resolveCustomNext resolveLight
  dsimp only
  cases hm : doc.mode <;> cases hf : doc.fan <;> cases ht : doc.temp <;>
    cases hc : doc.current_temp <;> cases hp : resolvedPower doc <;>
    · cases hl : doc.light with
      | none => simp [normalizeMode_idem, normalizeFan_idem]
      | some v => cases v <;> simp [normalizeMode_idem, normalizeFan_idem]

theorem resolveNamedNext_fix (doc : Doc) (p : HvacState) :
    resolveNamedNext doc (resolveNamedNext doc p) = resolveNamedNext doc p := by
  unfold resolveNamedNext resolveLight
  dsimp only
  cases hc : doc.current_temp <;>
    · cases hl : doc.light with
      | none => simp
      | some v => cases v <;> simp

theorem ensureAt_length (states : List HvacState) (idx : Nat) :
    (ensureAt states idx).length = states.length := by
  unfold ensureAt
  exact List.length_set states idx _

theorem ensureAt_of_initialized {states : List HvacState} {idx : Nat}
    (h : (states.getD idx default).initialized = true) :
    ensureAt states idx = states := by
  unfold ensureAt
  rw [ensure_of_initialized h]
  by_cases hlen : idx < states.length
  · exact list_set_getD_self hlen
  · exact list_set_of_length_le (by omega)

/-- C2 (amended): for every racepoint input passing the validity checks,
with accepted frequency `f` and trimmed pulse words `ws`, each duration is
`(w * 1000000 + f/2) / f` computed in 32-bit unsigned arithmetic (the
product wraps modulo 2^32 on the ESP32, as in `durationOf`); the emitted
sequence is `enableIROut f`, then per index the even-indexed durations as
mark chunks and the odd-indexed durations as exactly one space, then one
terminating space of duration 0, and the function succeeds.  The mark
chunks of a duration sum to that duration, each chunk is positive and at
most 65535, and every chunk but the last equals 65535 (a zero duration
emits no mark call). -/
theorem racepoint_emission_correct (l : List Char) (f : Nat) (ws : List Nat)
    (h : parseRacepointWords l = some (f, ws)) :
    parseStringAndSendRacepoint l =
      (true, IRAction.enableIROut f :: (pulseActions f ws 0 ++ [IRAction.space 0])) ∧
    (∀ i w, ws.get? i = some w →
       wordActions f i w =
         if i % 2 = 0 then (markChunks (durationOf f w)).map IRAction.mark
         else [IRAction.space (durationOf f w)]) ∧
    (∀ d, (markChunks d).sum = d) ∧
    (∀ d c, c ∈ markChunks d → 0 < c ∧ c ≤ 65535) ∧
    (∀ d c, c ∈ (markChunks d).dropLast → c = 65535) := by
  refine ⟨?_, ?_, ?_, ?_, ?_⟩
  · unfold parseStringAndSendRacepoint
    rw [h]
  · intro i w _
    rfl
  · exact markChunks_sum
  · exact fun d c hc => markChunks_mem hc
  · exact fun d c hc => markChunks_dropLast c hc

/-- Witness for `racepoint_emission_correct`: the input `"947000200010"`
(frequency word 38000, pulse words 32 and 16) passes the checks and emits
`enableIROut 38000, mark 842, space 421, space 0`. -/
theorem racepoint_emission_correct_witness :
    parseRacepointWords ("947000200010".data) = some (38000, [32, 16]) ∧
    parseStringAndSendRacepoint ("947000200010".data) =
      (true, IRAction.enableIROut 38000 ::
        (pulseActions 38000 [32, 16] 0 ++ [IRAction.space 0])) :=
  ⟨by decide, (racepoint_emission_correct ("947000200010".data) 38000 [32, 16]
    (by decide)).1⟩

/-- C2 counterexample: on input `"94701388"` (frequency 38000, single pulse
word 5000) the code emits a single mark of 18553 µs — the product
`5000 * 1000000` wraps modulo 2^32 — while the claim's exact-arithmetic
formula `(5000*1000000 + 38000/2) / 38000` gives 131579, so the emitted
mark chunks do not sum to the claimed duration. -/
theorem racepoint_emission_counterexample :
    parseRacepointWords ("94701388".data) = some (38000, [5000]) ∧
    ((parseStringAndSendRacepoint ("94701388".data)).2.filterMap markDuration).sum
      = 18553 ∧
    (5000 * 1000000 + 38000 / 2) / 38000 = 131579 ∧
    (18553 : Nat) ≠ 131579 := by
  refine ⟨by decide, by decide, by norm_num, by decide⟩

/-- C3: `parseStringAndSendRacepoint` fails if and only if fewer than 8 hex
digits are retained, or the retained count is not a multiple of 4, or no
4-hex-digit big-endian word lies within `[20000, 60000]`, or every word
after the first such word is zero (which covers both "no words follow"
and "only zero words follow", i.e. the pulse sequence is empty after
trimming trailing zeros); in all other cases it succeeds. -/
theorem racepoint_failure_iff (l : List Char) :
    (parseStringAndSendRacepoint l).1 = false ↔
    ((l.filter isHexDigitChar).length < 8 ∨
     (l.filter isHexDigitChar).length % 4 ≠ 0 ∨
     (∀ w ∈ toWords (l.filter isHexDigitChar), ¬(20000 ≤ w ∧ w ≤ 60000)) ∨
     (∃ f s, findFreq (toWords (l.filter isHexDigitChar)) 0 = some (f, s) ∧
        ∀ w ∈ (toWords (l.filter isHexDigitChar)).drop s, w = 0)) := by
  rw [racepoint_false_iff_none]
  exact parseRacepointWords_eq_none_iff

/-- C5: `hvacStateChanged` returns true iff the `initialized` flags differ,
or both are initialized and `power`, `mode`, `fan` or `light` differ
exactly, or either rational field differs by more than 0.05 in absolute
value; in particular two uninitialized states never differ, a setpoint
change from 24.0 to 24.04 is not a change, and a change from 24.0 to
24.06 is a change.  (The C++ `float` fields are modelled as exact
rationals.) -/
theorem hvacStateChanged_correct :
    (∀ a b : HvacState, hvacStateChanged a b = true ↔
      (a.initialized ≠ b.initialized ∨
       (a.initialized = true ∧ b.initialized = true ∧
        (a.power ≠ b.power ∨ a.mode ≠ b.mode ∨ a.fan ≠ b.fan ∨
         a.light ≠ b.light ∨ 0.05 < |a.setpoint - b.setpoint| ∨
         0.05 < |a.currentTemp - b.currentTemp|)))) ∧
    hvacStateChanged {} {} = false ∧
    hvacStateChanged { initialized := true, setpoint := 24 }
      { initialized := true, setpoint := 24.04 } = false ∧
    hvacStateChanged { initialized := true, setpoint := 24 }
      { initialized := true, setpoint := 24.06 } = true := by
  refine ⟨hvacStateChanged_iff, rfl, ?_, ?_⟩
  · rw [Bool.eq_false_iff, ne_eq, hvacStateChanged_iff]
    push_neg
    refine ⟨rfl, fun _ _ => ⟨rfl, rfl, rfl, rfl, ?_, ?_⟩⟩
    · rw [abs_le]; constructor <;> norm_num
    · rw [abs_le]; constructor <;> norm_num
  · rw [hvacStateChanged_iff]
    refine Or.inr ⟨rfl, rfl, Or.inr (Or.inr (Or.inr (Or.inr (Or.inl ?_))))⟩
    have h : (24 : ℚ) - 24.06 = -0.06 := by norm_num
    rw [h, abs_neg, abs_of_pos (by norm_num)]
    norm_num

/-- C7: the state object built by `writeStateJson` reports the setpoint in
its `current_temp` field, and the output is entirely independent of the
tracked `currentTemp` value. -/
theorem writeStateJson_current_temp (id : String) (st : HvacState) (x : ℚ) :
    (writeStateJson id st).current_temp = st.setpoint ∧
    writeStateJson id { st with currentTemp := x } = writeStateJson id st :=
  ⟨rfl, rfl⟩

/-- C4 (amended): the pronto decoder consumes the first token as a repeat
token exactly when it is longer than one character and starts with `R` or
`r` (the remaining characters need not be digits); the repeat count is
`toInt` of the remainder cast to `uint16_t` (0 when no digits lead), and
the consumed token is excluded from the data sequence and the
minimum-length check.  For any other first token the caller-supplied
default stands and the token is kept as data.  In particular a leading
`R5` yields repeat count 5 and is excluded from the length check. -/
theorem pronto_repeat_token (str : List Char) (repeats : Nat) :
    (∀ t rest, tokenizeFlexible (trimArd str) = t :: rest →
       (1 < t.length ∧ (t.head? = some 'R' ∨ t.head? = some 'r')) →
       parseStringAndSendPronto str repeats =
         (if rest.length < kProntoMinLength then (false, none)
          else (true,
            some (rest.map (fun tok => toUInt16C ((strtoulHex tok : Int))),
                  toUInt16C (atolArd (t.drop 1)))))) ∧
    (∀ t rest, tokenizeFlexible (trimArd str) = t :: rest →
       ¬(1 < t.length ∧ (t.head? = some 'R' ∨ t.head? = some 'r')) →
       parseStringAndSendPronto str repeats =
         (if rest.length + 1 < kProntoMinLength then (false, none)
          else (true,
            some ((t :: rest).map (fun tok => toUInt16C ((strtoulHex tok : Int))),
                  repeats)))) ∧
    parseStringAndSendPronto ("R5 1 2 3 4 5 6".data) 0 =
      (true, some ([1, 2, 3, 4, 5, 6], 5)) ∧
    parseStringAndSendPronto ("R5 1 2 3 4 5".data) 0 = (false, none) := by
  refine ⟨?_, ?_, by decide, by decide⟩
  · intro t rest htok hcond
    unfold parseStringAndSendPronto
    rw [htok]
    unfold prontoCore
    dsimp only
    rw [if_pos hcond]
    have hlen : (t :: rest).length - 1 = rest.length := by simp
    rw [hlen]
    by_cases hmin : rest.length < kProntoMinLength
    · rw [if_pos hmin, if_pos hmin]
    · rw [if_neg hmin, if_neg hmin]
      have hpos : 0 < (rest.map (fun tok => toUInt16C ((strtoulHex tok : Int)))).length := by
        rw [List.length_map]
        unfold kProntoMinLength at hmin
        omega
      rw [decide_eq_true hpos]
  · intro t rest htok hcond
    unfold parseStringAndSendPronto
    rw [htok]
    unfold prontoCore
    dsimp only
    rw [if_neg hcond]
    have hlen : (t :: rest).length = rest.length + 1 := by simp
    rw [hlen]
    by_cases hmin : rest.length + 1 < kProntoMinLength
    · rw [if_pos hmin, if_pos hmin]
    · rw [if_neg hmin, if_neg hmin]
      have hpos : 0 < ((t :: rest).map (fun tok => toUInt16C ((strtoulHex tok : Int)))).length := by
        simp
      rw [decide_eq_true hpos]

/-- Witness for `pronto_repeat_token`: the input `"R5 1 2 3 4 5 6"` has
first token `R5`, which is consumed; the six remaining tokens meet the
minimum and the repeat count is 5. -/
theorem pronto_repeat_token_witness :
    parseStringAndSendPronto ("R5 1 2 3 4 5 6".data) 7 =
      (true, some ([1, 2, 3, 4, 5, 6], 5)) := by
  have h := (pronto_repeat_token ("R5 1 2 3 4 5 6".data) 7).1 ("R5".data)
    ["1".data, "2".data, "3".data, "4".data, "5".data, "6".data]
    (by decide) (by decide)
  rw [h]
  decide

/-- C4 counterexample: the first token `Rx` does not match `[Rr]<digits>`
(`x` is not a digit), so by the claim the default repeat count 9 should
stand and `Rx` should be kept as data; instead the code consumes `Rx` as a
repeat token, the repeat count becomes `toInt("x") = 0`, and only the six
remaining tokens are kept. -/
theorem pronto_repeat_token_counterexample :
    (tokenizeFlexible (trimArd ("Rx 1 2 3 4 5 6".data))).head? = some ("Rx".data) ∧
    (("Rx".data).drop 1).all isDigitC = false ∧
    parseStringAndSendPronto ("Rx 1 2 3 4 5 6".data) 9 =
      (true, some ([1, 2, 3, 4, 5, 6], 0)) ∧
    (0 : Nat) ≠ 9 := by decide

theorem list_getD_mem {α : Type} {l : List α} {i : Nat} {d : α}
    (h : i < l.length) : l.getD i d ∈ l := by
  induction l generalizing i with
  | nil => simp at h
  | cons x xs ih =>
    cases i with
    | zero => simp [List.getD]
    | succ n =>
      simp only [List.getD, List.get?] at *
      right
      exact ih (by simpa using h)

theorem list_mem_set {α : Type} {l : List α} {i : Nat} {a b : α}
    (h : a ∈ l.set i b) : a ∈ l ∨ a = b := by
  induction l generalizing i with
  | nil => simp at h
  | cons x xs ih =>
    cases i with
    | zero =>
      rcases List.mem_cons.mp h with h | h
      · exact Or.inr h
      · exact Or.inl (List.mem_cons_of_mem _ h)
    | succ n =>
      rcases List.mem_cons.mp h with h | h
      · exact Or.inl (by simp [h])
      · rcases ih h with h | h
        · exact Or.inl (List.mem_cons_of_mem _ h)
        · exact Or.inr h

theorem ensure_valid {st : HvacState}
    (h : validMode st.mode ∧ validFan st.fan) :
    validMode (ensureHvacStateInitialized st).mode ∧
    validFan (ensureHvacStateInitialized st).fan := by
  unfold ensureHvacStateInitialized
  split
  · exact h
  · exact ⟨by decide, by decide⟩

theorem getD_default_valid {states : List HvacState} {idx : Nat}
    (h : StatesValid states) :
    validMode (states.getD idx default).mode ∧
    validFan (states.getD idx default).fan := by
  by_cases hlen : idx < states.length
  · exact h _ (list_getD_mem hlen)
  · rw [List.getD_eq_default _ _ (by omega)]
    exact ⟨by decide, by decide⟩

theorem ensureAt_valid {states : List HvacState} {idx : Nat}
    (h : StatesValid states) : StatesValid (ensureAt states idx) := by
  intro st hm
  rcases list_mem_set hm with hm | hm
  · exact h st hm
  · rw [hm]
    exact ensure_valid (getD_default_valid h)

theorem getAllEnsure_valid {hvacs : List HvacConfig} {states : List HvacState}
    (h : StatesValid states) : StatesValid (getAllEnsure hvacs states) := by
  induction hvacs generalizing states with
  | nil => simpa [getAllEnsure] using h
  | cons hv hs ih =>
    cases states with
    | nil => intro st hm; simp [getAllEnsure] at hm
    | cons s ss =>
      intro st hm
      unfold getAllEnsure at hm
      rcases List.mem_cons.mp hm with hm | hm
      · rw [hm]
        exact ensure_valid (h s (by simp))
      · exact ih (fun x hx => h x (List.mem_cons_of_mem _ hx)) st hm

theorem resolveCustomNext_valid (doc : Doc) (p : HvacState) :
    validMode (resolveCustomNext doc p).mode ∧
    validFan (resolveCustomNext doc p).fan := by
  unfold resolveCustomNext
  dsimp only
  constructor
  · split
    · exact normalizeMode_valid _
    · decide
  · exact normalizeFan_valid _

theorem resolveNamedNext_valid (doc : Doc) (p : HvacState) :
    validMode (resolveNamedNext doc p).mode ∧
    validFan (resolveNamedNext doc p).fan :=
  ⟨opmodeToString_valid _, fanToString_valid _⟩

theorem sendCmd_preserves {ps : String → Bool} {sys : Sys} {doc : Doc}
    {acOk : Bool} (h : StatesValid sys.states) :
    StatesValid (sendCmd ps sys doc acOk).sys.states := by
  unfold sendCmd
  dsimp only
  split
  · exact h
  · split
    · exact h
    · rename_i idx heq
      split
      · split
        · split
          · exact ensureAt_valid h
          · rename_i code hcc
            split
            · intro st hm
              rcases list_mem_set hm with hm | hm
              · exact ensureAt_valid h st hm
              · rw [hm]
                exact resolveCustomNext_valid _ _
            · exact ensureAt_valid h
        · split
          · split
            · intro st hm
              rcases list_mem_set hm with hm | hm
              · exact ensureAt_valid h st hm
              · rw [hm]
                exact resolveNamedNext_valid _ _
            · exact ensureAt_valid h
          · exact ensureAt_valid h
      · exact h

theorem processCommand_preserves {ps : String → Bool} {sys : Sys} {doc : Doc}
    {acOk : Bool} (h : StatesValid sys.states) :
    StatesValid (processCommand ps sys doc acOk).sys.states := by
  unfold processCommand
  dsimp only
  split
  · exact h
  · split
    · exact h
    · split
      · split
        · exact h
        · split
          · exact h
          · exact ensureAt_valid h
      · split
        · exact getAllEnsure_valid h
        · split
          · split
            · exact h
            · exact h
          · split
            · exact h
            · exact sendCmd_preserves h

theorem runCommands_preserves {ps : String → Bool} {sys : Sys}
    {cmds : List (Doc × Bool)} (h : StatesValid sys.states) :
    StatesValid (runCommands ps sys cmds).states := by
  induction cmds generalizing sys with
  | nil => simpa [runCommands] using h
  | cons c cs ih =>
    unfold runCommands
    exact ih (processCommand_preserves h)

/-- C8: after any sequence of `processCommand` calls starting from the
default states, every stored state's `mode` is one of
auto/cool/heat/dry/fan/off and every `fan` one of
auto/min/low/medium/high/max; `normalizeMode` maps every string whose
lowercase form is outside the mode set to `"auto"`, `normalizeFan` maps
every string whose lowercase form is outside the fan set to `"auto"`, and
`opmodeToString` / `fanToString` always return members of these sets. -/
theorem mode_fan_invariant :
    (∀ (ps : String → Bool) (hvacs : List HvacConfig) (ec : Nat)
       (cmds : List (Doc × Bool)) (st : HvacState),
       st ∈ (runCommands ps
         ⟨hvacs, List.replicate hvacs.length {}, ec⟩ cmds).states →
       validMode st.mode ∧ validFan st.fan) ∧
    (∀ s : String,
       alower s ∉ (["cool", "heat", "dry", "fan", "off"] : List String) →
       normalizeMode s = "auto") ∧
    (∀ s : String,
       alower s ∉ (["min", "low", "medium", "high", "max"] : List String) →
       normalizeFan s = "auto") ∧
    (∀ m : Opmode, validMode (opmodeToString m)) ∧
    (∀ f : Fanspeed, validFan (fanToString f)) := by
  refine ⟨?_, ?_, ?_, opmodeToString_valid, fanToString_valid⟩
  · intro ps hvacs ec cmds st hm
    refine runCommands_preserves ?_ st hm
    intro x hx
    rw [List.eq_of_mem_replicate hx]
    exact ⟨by decide, by decide⟩
  · intro s hs
    unfold normalizeMode
    dsimp only
    split
    · rename_i h
      exfalso
      apply hs
      rcases h with h | h | h | h | h <;> rw [h] <;> decide
    · rfl
  · intro s hs
    unfold normalizeFan
    dsimp only
    split
    · rename_i h
      exfalso
      apply hs
      rcases h with h | h | h | h | h <;> rw [h] <;> decide
    · rfl

/-- Witness for `mode_fan_invariant`: the default state of a one-device
registry after the empty command sequence has a valid mode and fan. -/
theorem mode_fan_invariant_witness :
    validMode ({} : HvacState).mode ∧ validFan ({} : HvacState).fan :=
  mode_fan_invariant.1 (fun _ => false) [{}] 0 [] {}
    (show ({} : HvacState) ∈ [({} : HvacState)] from List.mem_singleton.mpr rfl)

theorem customCode_error_ne {hvac : HvacConfig} {doc : Doc} {e : String}
    (h : customCode hvac doc = .error e) : e ≠ "unknown_cmd" := by
  unfold customCode at h
  dsimp only at h
  intro hcon
  subst hcon
  split at h
  · rename_i e' heq
    rw [show e' = "unknown_cmd" from by simpa using h] at heq
    split at heq
    · split at heq
      · simp at heq
      · simp at heq
    · split at heq
      · split at heq
        · simp at heq
        · simp at heq
      · simp at heq
  · rename_i c heq
    split at h
    · simp at h
    · simp at h

theorem sendCmd_reply_ne_unknown {ps : String → Bool} {sys : Sys} {doc : Doc}
    {acOk : Bool} : (sendCmd ps sys doc acOk).reply ≠ .err "unknown_cmd" := by
  unfold sendCmd
  dsimp only
  split
  · simp
  · split
    · simp
    · split
      · split
        · split
          · rename_i e hcc
            simp only [ne_eq, Reply.err.injEq]
            exact customCode_error_ne hcc
          · split
            · simp
            · simp
        · split
          · split
            · simp
            · simp
          · simp
      · simp

theorem processCommand_unknown_iff (ps : String → Bool) (sys : Sys) (doc : Doc)
    (acOk : Bool) :
    (processCommand ps sys doc acOk).reply = .err "unknown_cmd" ↔
    (doc.cmd.getD "send") ∉
      (["list", "send", "get", "get_all", "raw", "help"] : List String) := by
  unfold processCommand
  dsimp only
  split
  · rename_i h
    rw [h]
    simp
  · split
    · rename_i h
      rw [h]
      simp
    · split
      · rename_i hcmd
        split
        · rw [hcmd]
          simp
        · split
          · rw [hcmd]
            simp
          · rw [hcmd]
            simp
      · split
        · rename_i hcmd
          rw [hcmd]
          simp
        · split
          · rename_i hcmd
            split
            · split
              · rw [hcmd]
                simp
              · rw [hcmd]
                simp
            · rw [hcmd]
              simp
          · split
            · rename_i hsend
              rename_i h1 h2 h3 h4 h5
              constructor
              · intro _
                simp only [List.mem_cons, List.not_mem_nil, or_false]
                push_neg
                exact ⟨h2, hsend, h3, h4, h5, h1⟩
              · intro _
                rfl
            · rename_i hsend
              push_neg at hsend
              rw [hsend]
              constructor
              · intro h
                exact absurd h sendCmd_reply_ne_unknown
              · intro h
                simp at h

/-- C10: a structured command with no `cmd` field is processed exactly as a
`send` command (the missing field defaults to `"send"`), and `unknown_cmd`
is returned precisely when a `cmd` value is present and is none of list,
send, get, get_all, raw, help. -/
theorem missing_cmd_defaults_to_send (ps : String → Bool) (sys : Sys)
    (doc : Doc) (acOk : Bool) :
    processCommand ps sys { doc with cmd := none } acOk =
      processCommand ps sys { doc with cmd := some "send" } acOk ∧
    ((processCommand ps sys doc acOk).reply = .err "unknown_cmd" ↔
      ∃ c, doc.cmd = some c ∧
        c ∉ (["list", "send", "get", "get_all", "raw", "help"] : List String)) := by
  constructor
  · cases doc
    rfl
  · rw [processCommand_unknown_iff]
    cases hc : doc.cmd with
    | none => simp
    | some c => simp

/-- C9: a `raw` command leaves every stored state exactly as it was,
triggers no broadcast, and its reply is independent of the state table, the
device registry and the external library oracles — it depends only on the
emitter count and the supplied emitter index, encoding and code. -/
theorem raw_no_state_access (ps ps' : String → Bool) (sys sys' : Sys)
    (doc : Doc) (ac ac' : Bool) (h : doc.cmd = some "raw") :
    (processCommand ps sys doc ac).sys = sys ∧
    (processCommand ps sys doc ac).broadcasts = [] ∧
    (sys'.emitterCount = sys.emitterCount →
      (processCommand ps' sys' doc ac').reply =
        (processCommand ps sys doc ac).reply) := by
  have hred : ∀ (p : String → Bool) (s : Sys) (a : Bool),
      processCommand p s doc a =
      (if toUInt8C (doc.emitter.getD 0) < s.emitterCount then
         (⟨s, if sendCustomCode (doc.code.getD "") (doc.encoding.getD "pronto")
              then .okRaw else .err "send_failed", []⟩ : StepResult)
       else ⟨s, .err "invalid_emitter", []⟩) := by
    intro p s a
    unfold processCommand
    rw [h]
    rfl
  refine ⟨?_, ?_, ?_⟩
  · rw [hred ps sys ac]
    split <;> rfl
  · rw [hred ps sys ac]
    split <;> rfl
  · intro hec
    rw [hred ps' sys' ac', hred ps sys ac, hec]
    split <;> rfl

/-- Witness for `raw_no_state_access`: a concrete racepoint `raw` command
against two different registries with the same emitter count. -/
theorem raw_no_state_access_witness :
    (processCommand (fun _ => true)
      ⟨[], [], 1⟩
      { cmd := some "raw", encoding := some "racepoint",
        code := some "947000200010" } true).sys = ⟨[], [], 1⟩ ∧
    (processCommand (fun _ => true)
      ⟨[], [], 1⟩
      { cmd := some "raw", encoding := some "racepoint",
        code := some "947000200010" } true).broadcasts = [] ∧
    ((⟨[{ id := "1" }], [{}], 1⟩ : Sys).emitterCount =
        (⟨[], [], 1⟩ : Sys).emitterCount →
      (processCommand (fun _ => false)
        ⟨[{ id := "1" }], [{}], 1⟩
        { cmd := some "raw", encoding := some "racepoint",
          code := some "947000200010" } false).reply =
      (processCommand (fun _ => true)
        ⟨[], [], 1⟩
        { cmd := some "raw", encoding := some "racepoint",
          code := some "947000200010" } true).reply) :=
  raw_no_state_access (fun _ => true) (fun _ => false)
    ⟨[], [], 1⟩ ⟨[{ id := "1" }], [{}], 1⟩
    { cmd := some "raw", encoding := some "racepoint",
      code := some "947000200010" } true false rfl

theorem processCommand_send {ps : String → Bool} {sys : Sys} {doc : Doc}
    {acOk : Bool} (h : doc.cmd.getD "send" = "send") :
    processCommand ps sys doc acOk = sendCmd ps sys doc acOk := by
  unfold processCommand
  dsimp only
  rw [h]
  rfl

/-- C1 (amended): a `send` to a custom device whose resolved power is off
and whose config has no off code fails with `missing_custom_off`, triggers
no broadcast, and leaves the state table unchanged except for the lazy
initialization that `processCommand` performs before the check: a
previously uninitialized state becomes the default initialized state; when
the device's state was already initialized the table is exactly unchanged. -/
theorem missing_custom_off_state (ps : String → Bool) (sys : Sys) (doc : Doc)
    (acOk : Bool) (idx : Nat)
    (hcmd : doc.cmd.getD "send" = "send")
    (hid : doc.id.getD "" ≠ "")
    (hfind : findHvacIndexById sys.hvacs (doc.id.getD "") = some idx)
    (hcustom : (sys.hvacs.getD idx default).isCustom ∨
      (sys.hvacs.getD idx default).protocol = "CUSTOM")
    (hem : toUInt8C (sys.hvacs.getD idx default).emitterIndex < sys.emitterCount)
    (hpow : resolvedPower doc = false)
    (hoff : (sys.hvacs.getD idx default).customOff = "") :
    processCommand ps sys doc acOk =
      ⟨{ sys with states := ensureAt sys.states idx },
       .err "missing_custom_off", []⟩ ∧
    ((sys.states.getD idx default).initialized = true →
      (processCommand ps sys doc acOk).sys = sys) := by
  have hcc : customCode (sys.hvacs.getD idx default) doc =
      .error "missing_custom_off" := by
    unfold customCode
    dsimp only
    rw [if_pos hpow, if_pos hoff]
  have hmain : processCommand ps sys doc acOk =
      ⟨{ sys with states := ensureAt sys.states idx },
       .err "missing_custom_off", []⟩ := by
    rw [processCommand_send hcmd]
    unfold sendCmd
    dsimp only
    rw [if_neg hid, hfind]
    dsimp only
    rw [if_pos hem, if_pos hcustom, hcc]
  refine ⟨hmain, ?_⟩
  intro hinit
  rw [hmain]
  dsimp only
  rw [ensureAt_of_initialized hinit]

/-- Witness for `missing_custom_off_state`: one custom device with no off
code, already-initialized state, and a `send` with `power: "off"`. -/
theorem missing_custom_off_state_witness :
    processCommand (fun _ => true)
      ⟨[{ id := "1", protocol := "CUSTOM", emitterIndex := 0, isCustom := true,
          customEncoding := "racepoint" }], [{ initialized := true }], 1⟩
      { cmd := some "send", id := some "1", power := some "off" } true =
      ⟨{ hvacs := [{ id := "1", protocol := "CUSTOM", emitterIndex := 0,
                     isCustom := true, customEncoding := "racepoint" }],
         states := ensureAt [{ initialized := true }] 0, emitterCount := 1 },
       .err "missing_custom_off", []⟩ :=
  (missing_custom_off_state (fun _ => true)
    ⟨[{ id := "1", protocol := "CUSTOM", emitterIndex := 0, isCustom := true,
        customEncoding := "racepoint" }], [{ initialized := true }], 1⟩
    { cmd := some "send", id := some "1", power := some "off" } true 0
    rfl (by decide) (by decide) (by decide) (by decide) (by decide) rfl).1

/-- C1 counterexample: the same scenario with a previously uninitialized
state — the command fails with `missing_custom_off`, yet the stored state
is no longer equal to its value from before the call: lazy initialization
has flipped the `initialized` flag. -/
theorem missing_custom_off_counterexample :
    (processCommand (fun _ => true)
      ⟨[{ id := "1", protocol := "CUSTOM", emitterIndex := 0, isCustom := true,
          customEncoding := "racepoint" }], [{}], 1⟩
      { cmd := some "send", id := some "1", power := some "off" } true).reply =
      .err "missing_custom_off" ∧
    (processCommand (fun _ => true)
      ⟨[{ id := "1", protocol := "CUSTOM", emitterIndex := 0, isCustom := true,
          customEncoding := "racepoint" }], [{}], 1⟩
      { cmd := some "send", id := some "1", power := some "off" } true).sys.states
      ≠ [({} : HvacState)] := by
  constructor
  · rfl
  · intro hcon
    have h1 : (processCommand (fun _ => true)
      ⟨[{ id := "1", protocol := "CUSTOM", emitterIndex := 0, isCustom := true,
          customEncoding := "racepoint" }], [{}], 1⟩
      { cmd := some "send", id := some "1", power := some "off" } true).sys.states
      = [ensureHvacStateInitialized {}] := rfl
    rw [h1] at hcon
    have h2 : (ensureHvacStateInitialized {}).initialized =
        ({} : HvacState).initialized := by
      rw [List.cons.injEq] at hcon
      rw [hcon.1]
    rw [show (ensureHvacStateInitialized {}).initialized = true from rfl] at h2
    simp at h2

theorem sendCmd_red_missing_id {ps : String → Bool} {sys : Sys} {doc : Doc}
    {acOk : Bool} (h : doc.id.getD "" = "") :
    sendCmd ps sys doc acOk = ⟨sys, .err "missing_id", []⟩ := by
  unfold sendCmd
  dsimp only
  rw [if_pos h]

theorem sendCmd_red_unknown_id {ps : String → Bool} {sys : Sys} {doc : Doc}
    {acOk : Bool} (h : doc.id.getD "" ≠ "")
    (hfind : findHvacIndexById sys.hvacs (doc.id.getD "") = none) :
    sendCmd ps sys doc acOk = ⟨sys, .err "unknown_id", []⟩ := by
  unfold sendCmd
  dsimp only
  rw [if_neg h, hfind]

theorem sendCmd_red_invalid_emitter {ps : String → Bool} {sys : Sys} {doc : Doc}
    {acOk : Bool} {idx : Nat} (h : doc.id.getD "" ≠ "")
    (hfind : findHvacIndexById sys.hvacs (doc.id.getD "") = some idx)
    (hem : ¬ toUInt8C (sys.hvacs.getD idx default).emitterIndex < sys.emitterCount) :
    sendCmd ps sys doc acOk = ⟨sys, .err "invalid_emitter", []⟩ := by
  unfold sendCmd
  dsimp only
  rw [if_neg h, hfind]
  dsimp only
  rw [if_neg hem]

theorem sendCmd_red_custom_err {ps : String → Bool} {sys : Sys} {doc : Doc}
    {acOk : Bool} {idx : Nat} {e : String} (h : doc.id.getD "" ≠ "")
    (hfind : findHvacIndexById sys.hvacs (doc.id.getD "") = some idx)
    (hem : toUInt8C (sys.hvacs.getD idx default).emitterIndex < sys.emitterCount)
    (hcust : (sys.hvacs.getD idx default).isCustom = true ∨
      (sys.hvacs.getD idx default).protocol = "CUSTOM")
    (hcc : customCode (sys.hvacs.getD idx default) doc = .error e) :
    sendCmd ps sys doc acOk =
      ⟨{ sys with states := ensureAt sys.states idx }, .err e, []⟩ := by
  unfold sendCmd
  dsimp only
  rw [if_neg h, hfind]
  dsimp only
  rw [if_pos hem, if_pos hcust, hcc]

theorem sendCmd_red_custom_sendfail {ps : String → Bool} {sys : Sys} {doc : Doc}
    {acOk : Bool} {idx : Nat} {code : String} (h : doc.id.getD "" ≠ "")
    (hfind : findHvacIndexById sys.hvacs (doc.id.getD "") = some idx)
    (hem : toUInt8C (sys.hvacs.getD idx default).emitterIndex < sys.emitterCount)
    (hcust : (sys.hvacs.getD idx default).isCustom = true ∨
      (sys.hvacs.getD idx default).protocol = "CUSTOM")
    (hcc : customCode (sys.hvacs.getD idx default) doc = .ok code)
    (hsend : sendCustomCode code
      (doc.encoding.getD (sys.hvacs.getD idx default).customEncoding) = false) :
    sendCmd ps sys doc acOk =
      ⟨{ sys with states := ensureAt sys.states idx }, .err "send_failed", []⟩ := by
  unfold sendCmd
  dsimp only
  rw [if_neg h, hfind]
  dsimp only
  rw [if_pos hem, if_pos hcust, hcc]
  dsimp only
  rw [hsend]
  rfl

theorem sendCmd_red_custom_ok (ps : String → Bool) (sys : Sys) (doc : Doc)
    (acOk : Bool) (idx : Nat) (code : String) (h : doc.id.getD "" ≠ "")
    (hfind : findHvacIndexById sys.hvacs (doc.id.getD "") = some idx)
    (hem : toUInt8C (sys.hvacs.getD idx default).emitterIndex < sys.emitterCount)
    (hcust : (sys.hvacs.getD idx default).isCustom = true ∨
      (sys.hvacs.getD idx default).protocol = "CUSTOM")
    (hcc : customCode (sys.hvacs.getD idx default) doc = .ok code)
    (hsend : sendCustomCode code
      (doc.encoding.getD (sys.hvacs.getD idx default).customEncoding) = true) :
    sendCmd ps sys doc acOk =
      ⟨{ sys with states := ((ensureAt sys.states idx).set idx (resolveCustomNext doc ((ensureAt sys.states idx).getD idx default))) },
       .okState (writeStateJson (doc.id.getD "")
         (resolveCustomNext doc ((ensureAt sys.states idx).getD idx default))),
       if hvacStateChanged ((ensureAt sys.states idx).getD idx default)
            (resolveCustomNext doc ((ensureAt sys.states idx).getD idx default))
       then [(doc.id.getD "",
              resolveCustomNext doc ((ensureAt sys.states idx).getD idx default))]
       else []⟩ := by
  unfold sendCmd
  dsimp only
  rw [if_neg h, hfind]
  dsimp only
  rw [if_pos hem, if_pos hcust, hcc]
  dsimp only
  rw [hsend]
  rfl

theorem sendCmd_red_unsupported {ps : String → Bool} {sys : Sys} {doc : Doc}
    {acOk : Bool} {idx : Nat} (h : doc.id.getD "" ≠ "")
    (hfind : findHvacIndexById sys.hvacs (doc.id.getD "") = some idx)
    (hem : toUInt8C (sys.hvacs.getD idx default).emitterIndex < sys.emitterCount)
    (hcust : ¬((sys.hvacs.getD idx default).isCustom = true ∨
      (sys.hvacs.getD idx default).protocol = "CUSTOM"))
    (hps : ps (sys.hvacs.getD idx default).protocol = false) :
    sendCmd ps sys doc acOk =
      ⟨{ sys with states := ensureAt sys.states idx },
       .err "unsupported_protocol", []⟩ := by
  unfold sendCmd
  dsimp only
  rw [if_neg h, hfind]
  dsimp only
  rw [if_pos hem, if_neg hcust]
  rw [hps]
  rfl

theorem sendCmd_red_named_sendfail (ps : String → Bool) (sys : Sys) (doc : Doc)
    (idx : Nat) (h : doc.id.getD "" ≠ "")
    (hfind : findHvacIndexById sys.hvacs (doc.id.getD "") = some idx)
    (hem : toUInt8C (sys.hvacs.getD idx default).emitterIndex < sys.emitterCount)
    (hcust : ¬((sys.hvacs.getD idx default).isCustom = true ∨
      (sys.hvacs.getD idx default).protocol = "CUSTOM"))
    (hps : ps (sys.hvacs.getD idx default).protocol = true) :
    sendCmd ps sys doc false =
      ⟨{ sys with states := ensureAt sys.states idx }, .err "send_failed", []⟩ := by
  unfold sendCmd
  dsimp only
  rw [if_neg h, hfind]
  dsimp only
  rw [if_pos hem, if_neg hcust]
  rw [hps]
  rfl

theorem sendCmd_red_named_ok (ps : String → Bool) (sys : Sys) (doc : Doc)
    (idx : Nat) (h : doc.id.getD "" ≠ "")
    (hfind : findHvacIndexById sys.hvacs (doc.id.getD "") = some idx)
    (hem : toUInt8C (sys.hvacs.getD idx default).emitterIndex < sys.emitterCount)
    (hcust : ¬((sys.hvacs.getD idx default).isCustom = true ∨
      (sys.hvacs.getD idx default).protocol = "CUSTOM"))
    (hps : ps (sys.hvacs.getD idx default).protocol = true) :
    sendCmd ps sys doc true =
      ⟨{ sys with states := ((ensureAt sys.states idx).set idx (resolveNamedNext doc ((ensureAt sys.states idx).getD idx default))) },
       .okState (writeStateJson (doc.id.getD "")
         (resolveNamedNext doc ((ensureAt sys.states idx).getD idx default))),
       if hvacStateChanged ((ensureAt sys.states idx).getD idx default)
            (resolveNamedNext doc ((ensureAt sys.states idx).getD idx default))
       then [(doc.id.getD "",
              resolveNamedNext doc ((ensureAt sys.states idx).getD idx default))]
       else []⟩ := by
  unfold sendCmd
  dsimp only
  rw [if_neg h, hfind]
  dsimp only
  rw [if_pos hem, if_neg hcust]
  rw [hps]
  rfl

/-- C6 (amended): processing the same `send` command twice in succession,
both processings succeeding, triggers at most one broadcast fan-out: the
second processing commits a state equal to the state the first committed
(so the tables are unchanged by the second call) and broadcasts nothing;
the first broadcasts only when its commit differs from the pre-call state
under the state-diff rule. -/
theorem send_twice_single_broadcast (ps : String → Bool) (sys : Sys)
    (doc : Doc) (ac1 ac2 : Bool)
    (hlen : sys.states.length = sys.hvacs.length)
    (hcmd : doc.cmd.getD "send" = "send")
    (hok1 : (processCommand ps sys doc ac1).reply.isOk = true)
    (hok2 : (processCommand ps (processCommand ps sys doc ac1).sys doc
      ac2).reply.isOk = true) :
    (processCommand ps (processCommand ps sys doc ac1).sys doc ac2).broadcasts
      = [] ∧
    (processCommand ps (processCommand ps sys doc ac1).sys doc ac2).sys =
      (processCommand ps sys doc ac1).sys ∧
    (processCommand ps sys doc ac1).broadcasts.length +
      (processCommand ps (processCommand ps sys doc ac1).sys doc
        ac2).broadcasts.length ≤ 1 := by
  rw [processCommand_send hcmd] at hok1 hok2 ⊢
  rw [processCommand_send hcmd] at hok2 ⊢
  by_cases hid : doc.id.getD "" = ""
  · rw [sendCmd_red_missing_id hid] at hok1
    simp [Reply.isOk] at hok1
  cases hfind : findHvacIndexById sys.hvacs (doc.id.getD "") with
  | none =>
    rw [sendCmd_red_unknown_id hid hfind] at hok1
    simp [Reply.isOk] at hok1
  | some idx =>
  by_cases hem : toUInt8C (sys.hvacs.getD idx default).emitterIndex <
      sys.emitterCount
  case neg =>
    rw [sendCmd_red_invalid_emitter hid hfind hem] at hok1
    simp [Reply.isOk] at hok1
  have hidx : idx < sys.states.length := by
    rw [hlen]
    exact findHvacIndexById_lt_length hfind
  have hlen1 : idx < (ensureAt sys.states idx).length := by
    rw [ensureAt_length]
    exact hidx
  by_cases hcust : (sys.hvacs.getD idx default).isCustom = true ∨
      (sys.hvacs.getD idx default).protocol = "CUSTOM"
  · -- custom branch
    cases hcc : customCode (sys.hvacs.getD idx default) doc with
    | error e =>
      rw [sendCmd_red_custom_err hid hfind hem hcust hcc] at hok1
      simp [Reply.isOk] at hok1
    | ok code =>
    cases hsend : sendCustomCode code
        (doc.encoding.getD (sys.hvacs.getD idx default).customEncoding) with
    | false =>
      rw [sendCmd_red_custom_sendfail hid hfind hem hcust hcc hsend] at hok1
      simp [Reply.isOk] at hok1
    | true =>
    have h1 := sendCmd_red_custom_ok ps sys doc ac1 idx code
      hid hfind hem hcust hcc hsend
    rw [h1]
    dsimp only
    have hget2 : (((ensureAt sys.states idx).set idx
        (resolveCustomNext doc ((ensureAt sys.states idx).getD idx default))).getD
          idx default) =
        resolveCustomNext doc ((ensureAt sys.states idx).getD idx default) :=
      list_getD_set_self hlen1
    have hens2 : ensureAt ((ensureAt sys.states idx).set idx
        (resolveCustomNext doc ((ensureAt sys.states idx).getD idx default))) idx =
        (ensureAt sys.states idx).set idx
          (resolveCustomNext doc ((ensureAt sys.states idx).getD idx default)) :=
      ensureAt_of_initialized (by rw [hget2]; rfl)
    have h2 := sendCmd_red_custom_ok ps
      { sys with states := ((ensureAt sys.states idx).set idx
        (resolveCustomNext doc ((ensureAt sys.states idx).getD idx default))) }
      doc ac2 idx code hid hfind hem hcust hcc hsend
    rw [h2]
    dsimp only
    rw [hens2, hget2, resolveCustomNext_fix]
    rw [List.set_set]
    rw [hvacStateChanged_self]
    rw [if_neg (by simp)]
    refine ⟨rfl, rfl, ?_⟩
    split <;> simp
  · -- named-protocol branch
    cases hps : ps (sys.hvacs.getD idx default).protocol with
    | false =>
      rw [sendCmd_red_unsupported hid hfind hem hcust hps] at hok1
      simp [Reply.isOk] at hok1
    | true =>
    cases ac1 with
    | false =>
      rw [sendCmd_red_named_sendfail ps sys doc idx hid hfind hem hcust hps] at hok1
      simp [Reply.isOk] at hok1
    | true =>
    have h1 := sendCmd_red_named_ok ps sys doc idx
      hid hfind hem hcust hps
    rw [h1] at hok2 ⊢
    dsimp only at hok2 ⊢
    have hget2 : (((ensureAt sys.states idx).set idx
        (resolveNamedNext doc ((ensureAt sys.states idx).getD idx default))).getD
          idx default) =
        resolveNamedNext doc ((ensureAt sys.states idx).getD idx default) :=
      list_getD_set_self hlen1
    have hens2 : ensureAt ((ensureAt sys.states idx).set idx
        (resolveNamedNext doc ((ensureAt sys.states idx).getD idx default))) idx =
        (ensureAt sys.states idx).set idx
          (resolveNamedNext doc ((ensureAt sys.states idx).getD idx default)) :=
      ensureAt_of_initialized (by rw [hget2]; rfl)
    cases ac2 with
    | false =>
      rw [sendCmd_red_named_sendfail ps
        { sys with states := ((ensureAt sys.states idx).set idx
          (resolveNamedNext doc ((ensureAt sys.states idx).getD idx default))) }
        doc idx hid hfind hem hcust hps] at hok2
      simp [Reply.isOk] at hok2
    | true =>
    have h2 := sendCmd_red_named_ok ps
      { sys with states := ((ensureAt sys.states idx).set idx
        (resolveNamedNext doc ((ensureAt sys.states idx).getD idx default))) }
      doc idx hid hfind hem hcust hps
    rw [h2]
    dsimp only
    rw [hens2, hget2, resolveNamedNext_fix]
    rw [List.set_set]
    rw [hvacStateChanged_self]
    rw [if_neg (by simp)]
    refine ⟨rfl, rfl, ?_⟩
    split <;> simp

/-- Witness for `send_twice_single_broadcast`: a custom device receiving
the same power-on `send` twice; both succeed, the second changes nothing. -/
theorem send_twice_single_broadcast_witness :
    (processCommand (fun _ => true)
      (processCommand (fun _ => true)
        ⟨[{ id := "1", protocol := "CUSTOM", emitterIndex := 0, isCustom := true,
            customEncoding := "racepoint", customOff := "947000200010" }],
         [{}], 1⟩
        { cmd := some "send", id := some "1", power := some "on",
          mode := some "cool", code := some "947000200010",
          encoding := some "racepoint" } true).sys
      { cmd := some "send", id := some "1", power := some "on",
        mode := some "cool", code := some "947000200010",
        encoding := some "racepoint" } true).broadcasts = [] ∧
    (processCommand (fun _ => true)
      (processCommand (fun _ => true)
        ⟨[{ id := "1", protocol := "CUSTOM", emitterIndex := 0, isCustom := true,
            customEncoding := "racepoint", customOff := "947000200010" }],
         [{}], 1⟩
        { cmd := some "send", id := some "1", power := some "on",
          mode := some "cool", code := some "947000200010",
          encoding := some "racepoint" } true).sys
      { cmd := some "send", id := some "1", power := some "on",
        mode := some "cool", code := some "947000200010",
        encoding := some "racepoint" } true).sys =
    (processCommand (fun _ => true)
      ⟨[{ id := "1", protocol := "CUSTOM", emitterIndex := 0, isCustom := true,
          customEncoding := "racepoint", customOff := "947000200010" }],
       [{}], 1⟩
      { cmd := some "send", id := some "1", power := some "on",
        mode := some "cool", code := some "947000200010",
        encoding := some "racepoint" } true).sys ∧
    (processCommand (fun _ => true)
      ⟨[{ id := "1", protocol := "CUSTOM", emitterIndex := 0, isCustom := true,
          customEncoding := "racepoint", customOff := "947000200010" }],
       [{}], 1⟩
      { cmd := some "send", id := some "1", power := some "on",
        mode := some "cool", code := some "947000200010",
        encoding := some "racepoint" } true).broadcasts.length +
    (processCommand (fun _ => true)
      (processCommand (fun _ => true)
        ⟨[{ id := "1", protocol := "CUSTOM", emitterIndex := 0, isCustom := true,
            customEncoding := "racepoint", customOff := "947000200010" }],
         [{}], 1⟩
        { cmd := some "send", id := some "1", power := some "on",
          mode := some "cool", code := some "947000200010",
          encoding := some "racepoint" } true).sys
      { cmd := some "send", id := some "1", power := some "on",
        mode := some "cool", code := some "947000200010",
        encoding := some "racepoint" } true).broadcasts.length ≤ 1 :=
  send_twice_single_broadcast (fun _ => true)
    ⟨[{ id := "1", protocol := "CUSTOM", emitterIndex := 0, isCustom := true,
        customEncoding := "racepoint", customOff := "947000200010" }],
     [{}], 1⟩
    { cmd := some "send", id := some "1", power := some "on",
      mode := some "cool", code := some "947000200010",
      encoding := some "racepoint" } true true rfl rfl rfl rfl

/-- C6 counterexample: a custom device with a configured off code receives
the same power-off `send` twice starting from the default (uninitialized)
state.  Both processings succeed, yet neither triggers a broadcast — zero
fan-outs, not exactly one — because the committed state already equals the
lazily initialized pre-call state. -/
theorem send_twice_single_broadcast_counterexample :
    (processCommand (fun _ => true) c6sys c6doc true).reply.isOk = true ∧
    (processCommand (fun _ => true)
      (processCommand (fun _ => true) c6sys c6doc true).sys c6doc
      true).reply.isOk = true ∧
    (processCommand (fun _ => true) c6sys c6doc true).broadcasts = [] ∧
    (processCommand (fun _ => true)
      (processCommand (fun _ => true) c6sys c6doc true).sys c6doc
      true).broadcasts = [] := by
  have hred1 := sendCmd_red_custom_ok (fun _ => true) c6sys c6doc
    true 0 "947000200010"
    (by decide) (by decide) (by decide) (by decide) rfl (by decide)
  have heq1 : resolveCustomNext c6doc ((ensureAt c6sys.states 0).getD 0 default) =
      (ensureAt c6sys.states 0).getD 0 default := rfl
  rw [heq1, hvacStateChanged_self] at hred1
  simp only [Bool.false_eq_true, if_false] at hred1
  have hp1 : processCommand (fun _ => true) c6sys c6doc true =
      sendCmd (fun _ => true) c6sys c6doc true :=
    processCommand_send rfl
  rw [hp1, hred1]
  dsimp only
  have hred2 := sendCmd_red_custom_ok (fun _ => true)
    { c6sys with states := ((ensureAt c6sys.states 0).set 0
      ((ensureAt c6sys.states 0).getD 0 default)) }
    c6doc true 0 "947000200010"
    (by decide) (by decide) (by decide) (by decide) rfl (by decide)
  have heq2 : resolveCustomNext c6doc
      ((ensureAt ((ensureAt c6sys.states 0).set 0
        ((ensureAt c6sys.states 0).getD 0 default)) 0).getD 0 default) =
      ((ensureAt ((ensureAt c6sys.states 0).set 0
        ((ensureAt c6sys.states 0).getD 0 default)) 0).getD 0 default) := rfl
  rw [heq2, hvacStateChanged_self] at hred2
  simp only [Bool.false_eq_true, if_false] at hred2
  have hp2 : processCommand (fun _ => true)
      ({ c6sys with states := ((ensureAt c6sys.states 0).set 0
        ((ensureAt c6sys.states 0).getD 0 default)) }) c6doc true =
      sendCmd (fun _ => true)
        { c6sys with states := ((ensureAt c6sys.states 0).set 0
          ((ensureAt c6sys.states 0).getD 0 default)) } c6doc true :=
    processCommand_send rfl
  rw [hp2, hred2]
  exact ⟨rfl, rfl, rfl, rfl⟩
